import Mathlib

/-!
Formal model of the Python Code Assistant (`src/main.py`).

Strings are modelled as `List Char`.  The regex searches of
`extract_code_and_tests` use the fixed pattern `open (.*?) close` with
`re.DOTALL`, which for literal delimiters means: find the leftmost
position where the opening literal matches and the closing literal
occurs later, and take the shortest text in between.  This is modelled
by `searchBetween` below.
-/

namespace PyAssistant

/-- ASCII whitespace removed by Python `str.strip()`. -/
def pyIsSpace (c : Char) : Bool :=
  c = ' ' || c = '\t' || c = '\n' || c = '\r' || c = '\x0b' || c = '\x0c'

/-- Python `s.strip()`: drop leading and trailing whitespace. -/
def strip (s : List Char) : List Char :=
  ((s.dropWhile pyIsSpace).reverse.dropWhile pyIsSpace).reverse

/-- Split `t` at the first occurrence of `needle`: returns
`(before, after)` with `t = before ++ needle ++ after`, or `none` when
`needle` does not occur in `t`.  This models the lazy group `(.*?)`
followed by the closing literal. -/
def splitAtFirst (needle : List Char) : List Char → Option (List Char × List Char)
  | [] => if needle = [] then some ([], []) else none
  | c :: rest =>
    if needle <+: c :: rest then
      some ([], (c :: rest).drop needle.length)
    else
      match splitAtFirst needle rest with
      | some (a, b) => some (c :: a, b)
      | none => none

/-- `re.search(open + lazy group + close, s, re.DOTALL).group(1)` for literal
delimiters: group 1 of the leftmost-then-shortest match, if any. -/
def searchBetween (openT closeT : List Char) : List Char → Option (List Char)
  | [] => none
  | c :: rest =>
    if openT <+: c :: rest then
      match splitAtFirst closeT ((c :: rest).drop openT.length) with
      | some (mid, _) => some mid
      | none => searchBetween openT closeT rest
    else
      searchBetween openT closeT rest

def codeOpen : List Char := ("[CODE]").data

def codeClose : List Char := ("[END CODE]").data

def testOpen : List Char := ("[TEST RESULTS]").data

def testClose : List Char := ("[END TEST RESULTS]").data

/-- The sentinel returned when the code section is absent. -/
def noCodeFound : List Char := ("No code found.").data

/-- `extract_code_and_tests` from `src/main.py`: extract the code
section and the test-results section from the raw response. -/
def extract_code_and_tests (response : List Char) : List Char × List Char :=
  let code :=
    match searchBetween codeOpen codeClose response with
    | some mid => strip mid
    | none => noCodeFound
  let test_results :=
    match searchBetween testOpen testClose response with
    | some mid => strip mid
    | none => []
  (code, test_results)

/-- Declaratively: `s` contains an occurrence of `openT` followed
(somewhere later) by an occurrence of `closeT`, i.e. the regex
`open (.*?) close` with DOTALL has a match in `s`. -/
def PairMatch (openT closeT s : List Char) : Prop :=
  ∃ a mid b, s = a ++ openT ++ mid ++ closeT ++ b

lemma splitAtFirst_spec (needle : List Char) :
    ∀ t a b, splitAtFirst needle t = some (a, b) → t = a ++ needle ++ b := by
  intro t
  induction t with
  | nil =>
    intro a b h
    by_cases hn : needle = [] <;> simp [splitAtFirst, hn] at h
    obtain ⟨ha, hb⟩ := h
    subst hn
    subst ha
    subst hb
    simp
  | cons c rest ih =>
    intro a b h
    by_cases hp : needle <+: c :: rest
    · simp [splitAtFirst, hp] at h
      obtain ⟨t, ht⟩ := hp
      obtain ⟨ha, hb⟩ := h
      subst ha
      rw [← ht] at hb ⊢
      rw [List.drop_left] at hb
      simp [← hb]
    · rw [splitAtFirst, if_neg hp] at h
      cases hsp : splitAtFirst needle rest with
      | none => rw [hsp] at h; exact absurd h (by simp)
      | some p =>
        obtain ⟨a0, b0⟩ := p
        rw [hsp] at h
        simp at h
        obtain ⟨ha, hb⟩ := h
        have hrest := ih a0 b0 hsp
        subst hb
        rw [← ha, hrest]
        simp

lemma splitAtFirst_isSome (needle : List Char) :
    ∀ t x y, t = x ++ needle ++ y → (splitAtFirst needle t).isSome := by
  intro t
  induction t with
  | nil =>
    intro x y h
    have hlen := congrArg List.length h
    simp at hlen
    have hn : needle = [] := List.length_eq_zero.mp (by omega)
    simp [splitAtFirst, hn]
  | cons c rest ih =>
    intro x y h
    by_cases hp : needle <+: c :: rest
    · simp [splitAtFirst, hp]
    · cases x with
      | nil =>
        exact absurd ⟨y, by simpa using h.symm⟩ hp
      | cons cx x' =>
        simp only [List.cons_append] at h
        have hc := (List.cons.injEq _ _ _ _).mp h
        rw [splitAtFirst, if_neg hp]
        cases hsp : splitAtFirst needle rest with
        | none =>
          have := ih x' y hc.2
          rw [hsp] at this
          exact absurd this (by simp)
        | some p => simp

/-- The first-occurrence position found by `splitAtFirst` is minimal. -/
lemma splitAtFirst_first (needle : List Char) :
    ∀ t a b, splitAtFirst needle t = some (a, b) →
      ∀ x y, t = x ++ needle ++ y → a.length ≤ x.length := by
  intro t
  induction t with
  | nil =>
    intro a b h x y hxy
    have hlen := congrArg List.length hxy
    simp at hlen
    have hn : needle = [] := List.length_eq_zero.mp (by omega)
    simp [splitAtFirst, hn] at h
    obtain ⟨ha, hb⟩ := h
    subst ha
    simp
  | cons c rest ih =>
    intro a b h x y hxy
    by_cases hp : needle <+: c :: rest
    · simp [splitAtFirst, hp] at h
      obtain ⟨ha, hb⟩ := h
      subst ha
      simp
    · cases x with
      | nil => exact absurd ⟨y, by simpa using hxy.symm⟩ hp
      | cons cx x' =>
        simp only [List.cons_append] at hxy
        have hc := (List.cons.injEq _ _ _ _).mp hxy
        rw [splitAtFirst, if_neg hp] at h
        cases hsp : splitAtFirst needle rest with
        | none => rw [hsp] at h; exact absurd h (by simp)
        | some p =>
          obtain ⟨a0, b0⟩ := p
          rw [hsp] at h
          simp only [Option.some.injEq, Prod.mk.injEq] at h
          obtain ⟨ha, hb⟩ := h
          have := ih a0 b0 hsp x' y hc.2
          simp [← ha, List.length_cons]
          omega

lemma searchBetween_some_decomp (openT closeT : List Char) :
    ∀ s mid, searchBetween openT closeT s = some mid →
      ∃ a b, s = a ++ openT ++ mid ++ closeT ++ b := by
  intro s
  induction s with
  | nil => intro mid h; exact absurd h (by simp [searchBetween])
  | cons c rest ih =>
    intro mid h
    by_cases hp : openT <+: c :: rest
    · rw [searchBetween, if_pos hp] at h
      cases hsp : splitAtFirst closeT ((c :: rest).drop openT.length) with
      | none =>
        rw [hsp] at h
        obtain ⟨a, b, hab⟩ := ih mid h
        exact ⟨c :: a, b, by simp [hab]⟩
      | some p =>
        obtain ⟨mid0, b0⟩ := p
        rw [hsp] at h
        simp only [Option.some.injEq] at h
        subst h
        obtain ⟨t, ht⟩ := hp
        have hdrop : (c :: rest).drop openT.length = t := by
          rw [← ht, List.drop_left]
        have hspec := splitAtFirst_spec closeT _ _ _ hsp
        rw [hdrop] at hspec
        refine ⟨[], b0, ?_⟩
        rw [← ht, hspec]
        simp
    · rw [searchBetween, if_neg hp] at h
      obtain ⟨a, b, hab⟩ := ih mid h
      exact ⟨c :: a, b, by simp [hab]⟩

lemma searchBetween_isSome (openT closeT : List Char) (hne : openT ≠ []) :
    ∀ s, PairMatch openT closeT s → (searchBetween openT closeT s).isSome := by
  intro s
  induction s with
  | nil =>
    rintro ⟨a, mid, b, hab⟩
    have hlen := congrArg List.length hab
    simp at hlen
    exact absurd (List.length_eq_zero.mp (by omega)) hne
  | cons c rest ih =>
    rintro ⟨a, mid, b, hab⟩
    by_cases hp : openT <+: c :: rest
    · rw [searchBetween, if_pos hp]
      obtain ⟨t, ht⟩ := hp
      have hdrop : (c :: rest).drop openT.length = t := by
        rw [← ht, List.drop_left]
      have hkey : ∃ x y, t = x ++ closeT ++ y := by
        have hlen : openT.length ≤ (a ++ openT ++ mid).length := by
          simp
          omega
        have hs : c :: rest = (a ++ openT ++ mid) ++ (closeT ++ b) := by
          rw [hab]
          simp [List.append_assoc]
        refine ⟨(a ++ openT ++ mid).drop openT.length, b, ?_⟩
        rw [← hdrop, hs, List.drop_append_of_le_length hlen]
        simp [List.append_assoc]
      obtain ⟨x, y, hxy⟩ := hkey
      have := splitAtFirst_isSome closeT t x y hxy
      rw [hdrop]
      cases hsp : splitAtFirst closeT t with
      | none => rw [hsp] at this; exact absurd this (by simp)
      | some p => simp
    · rw [searchBetween, if_neg hp]
      cases a with
      | nil => exact absurd ⟨mid ++ closeT ++ b, by simpa using hab.symm⟩ hp
      | cons ca a' =>
        simp only [List.cons_append] at hab
        have hc := (List.cons.injEq _ _ _ _).mp hab
        exact ih ⟨a', mid, b, hc.2⟩

lemma searchBetween_none_iff (openT closeT : List Char) (hne : openT ≠ []) (s : List Char) :
    searchBetween openT closeT s = none ↔ ¬ PairMatch openT closeT s := by
  constructor
  · intro h hm
    have := searchBetween_isSome openT closeT hne s hm
    rw [h] at this
    exact absurd this (by simp)
  · intro h
    cases hs : searchBetween openT closeT s with
    | none => rfl
    | some mid =>
      obtain ⟨a, b, hab⟩ := searchBetween_some_decomp openT closeT s mid hs
      exact absurd ⟨a, mid, b, hab⟩ h

lemma pairMatch_iff_isSome (openT closeT : List Char) (hne : openT ≠ []) (s : List Char) :
    PairMatch openT closeT s ↔ (searchBetween openT closeT s).isSome := by
  constructor
  · exact searchBetween_isSome openT closeT hne s
  · intro h
    cases hs : searchBetween openT closeT s with
    | none => rw [hs] at h; exact absurd h (by simp)
    | some mid =>
      obtain ⟨a, b, hab⟩ := searchBetween_some_decomp openT closeT s mid hs
      exact ⟨a, mid, b, hab⟩

/-- `searchBetween` returns group 1 of the FIRST match of the regex:
the match position is leftmost, and at that position the group is the
shortest possible (the lazy `(.*?)` semantics). -/
lemma searchBetween_first (openT closeT : List Char) :
    ∀ s mid, searchBetween openT closeT s = some mid →
      ∃ a b, s = a ++ openT ++ mid ++ closeT ++ b ∧
        ∀ a' mid' b', s = a' ++ openT ++ mid' ++ closeT ++ b' →
          a.length ≤ a'.length ∧ (a'.length = a.length → mid.length ≤ mid'.length) := by
  intro s
  induction s with
  | nil => intro mid h; exact absurd h (by simp [searchBetween])
  | cons c rest ih =>
    intro mid h
    by_cases hp : openT <+: c :: rest
    · rw [searchBetween, if_pos hp] at h
      obtain ⟨t, ht⟩ := hp
      have hdrop : (c :: rest).drop openT.length = t := by
        rw [← ht, List.drop_left]
      cases hsp : splitAtFirst closeT ((c :: rest).drop openT.length) with
      | some p =>
        obtain ⟨mid0, b0⟩ := p
        rw [hsp] at h
        simp only [Option.some.injEq] at h
        subst h
        rw [hdrop] at hsp
        have hspec := splitAtFirst_spec closeT _ _ _ hsp
        refine ⟨[], b0, ?_, ?_⟩
        · rw [← ht, hspec]
          simp
        · intro a' mid' b' hdec
          refine ⟨by simp, ?_⟩
          intro hlen
          have ha' : a' = [] := List.length_eq_zero.mp (by simpa using hlen)
          subst ha'
          simp only [List.nil_append] at hdec
          have ht' : t = mid' ++ closeT ++ b' := by
            refine @List.append_cancel_left _ openT _ _ ?_
            rw [ht, hdec]
            simp [List.append_assoc]
          rw [ht'] at hsp
          exact splitAtFirst_first closeT _ _ _ hsp mid' b' rfl
      | none =>
        rw [hsp] at h
        rw [hdrop] at hsp
        obtain ⟨a0, b0, hdec0, hmin0⟩ := ih mid h
        refine ⟨c :: a0, b0, by simp [hdec0], ?_⟩
        intro a' mid' b' hdec
        cases a' with
        | nil =>
          simp only [List.nil_append] at hdec
          have ht' : t = mid' ++ closeT ++ b' := by
            refine @List.append_cancel_left _ openT _ _ ?_
            rw [ht, hdec]
            simp [List.append_assoc]
          have := splitAtFirst_isSome closeT t mid' b' (by simpa [List.append_assoc] using ht')
          rw [hsp] at this
          exact absurd this (by simp)
        | cons ca a'' =>
          simp only [List.cons_append] at hdec
          have hc := (List.cons.injEq _ _ _ _).mp hdec
          have := hmin0 a'' mid' b' hc.2
          constructor
          · simp only [List.length_cons]
            omega
          · intro hlen
            apply this.2
            simp only [List.length_cons] at hlen
            omega
    · rw [searchBetween, if_neg hp] at h
      obtain ⟨a0, b0, hdec0, hmin0⟩ := ih mid h
      refine ⟨c :: a0, b0, by simp [hdec0], ?_⟩
      intro a' mid' b' hdec
      cases a' with
      | nil =>
        simp only [List.nil_append] at hdec
        refine absurd (⟨mid' ++ closeT ++ b', ?_⟩ : openT <+: c :: rest) hp
        rw [hdec]
        simp [List.append_assoc]
      | cons ca a'' =>
        simp only [List.cons_append] at hdec
        have hc := (List.cons.injEq _ _ _ _).mp hdec
        have := hmin0 a'' mid' b' hc.2
        constructor
        · simp only [List.length_cons]
          omega
        · intro hlen
          apply this.2
          simp only [List.length_cons] at hlen
          omega

/-- One user-visible side effect of the script (`time.sleep` and the
Streamlit output calls). -/
inductive Effect
  | sleep (seconds : Nat)
  | errorAgentFailed (retries : Nat) (e : List Char)
  | subheaderGeneratedCode
  | renderCode (code : List Char)
  | subheaderTestResults
  | renderText (t : List Char)
  | errorFailedToProcess
  deriving DecidableEq

/-- Result of `invoke_with_retry`: the returned value (`none` models the
Python `None` returned on exhaustion), the side effects in order, and
the number of completion calls performed. -/
structure InvokeResult where
  response : Option (List Char)
  effects : List Effect
  calls : Nat
  deriving DecidableEq

/-- The `for attempt in range(retries)` loop of `invoke_with_retry`.
`call i` is the outcome of the `chain.run` call on attempt `i`
(`Except.error e` models a raised exception with message `e`);
`remaining` is the number of loop iterations left, so the last attempt
is the one with `remaining = 1`, which reports the error and returns
`None` instead of sleeping. -/
def invokeLoop (call : Nat → Except (List Char) (List Char)) (retries delay : Nat) :
    Nat → Nat → InvokeResult
  | _, 0 => ⟨none, [], 0⟩
  | attempt, remaining + 1 =>
    match call attempt with
    | .ok response => ⟨some response, [], 1⟩
    | .error e =>
      match remaining with
      | 0 => ⟨none, [.errorAgentFailed retries e], 1⟩
      | r + 1 =>
        let rest := invokeLoop call retries delay (attempt + 1) (r + 1)
        ⟨rest.response, .sleep delay :: rest.effects, rest.calls + 1⟩

/-- `invoke_with_retry` from `src/main.py`; the Python defaults are
`retries=3, delay=2`, which is how `main` calls it. -/
def invoke_with_retry (call : Nat → Except (List Char) (List Char))
    (retries delay : Nat) : InvokeResult :=
  invokeLoop call retries delay 0 retries

/-- `valid_api` from `src/main.py`: performs the single probe call
(`probe` is its outcome), returns `False` on any exception and
otherwise the truthiness of the answer, i.e. whether it is non-empty. -/
def valid_api (probe : Except (List Char) (List Char)) : Bool :=
  match probe with
  | .ok ans => decide (ans ≠ [])
  | .error _ => false

/-- Fixed text of the prompt template before `{query}`. -/
def tpl1 : List Char :=
  (" You are a Python programming expert. \n                        Generate clean, efficient, and well-documented Python code based on the user\x27s requirements.\n\n                        Requirements: ").data

/-- Fixed text between `{query}` and the first `{testcases}`. -/
def tpl2 : List Char :=
  ("\n\n                        Please follow these guidelines:\n                        1. Write well-documented code with clear docstrings\n                        2. Include appropriate error handling\n                        3. Use type hints where relevant\n                        4. Follow PEP 8 style guidelines\n                        5. Handle edge cases\n\n                        ").data

/-- Fixed text between the first `{testcases}` and the `[CODE]` marker. -/
def tpl3 : List Char :=
  ("\n\n                        Format your response exactly as follows:\n\n                        ").data

/-- Fixed text between `[CODE]` and `[END CODE]`. -/
def tpl4 : List Char :=
  ("\n                        <Write your Python code here>\n                        ").data

/-- Fixed text between `[END CODE]` and `[TEST RESULTS]`. -/
def tpl5 : List Char :=
  ("\n\n                        ").data

/-- Fixed text between `[TEST RESULTS]` and the second `{testcases}`. -/
def tpl6 : List Char :=
  ("\n                        <Show test results if ").data

/-- Fixed text between the second and third `{testcases}`. -/
def tpl7 : List Char :=
  (" provided>\n                        <Return None if no ").data

/-- Fixed text between the third and fourth `{testcases}`. -/
def tpl8 : List Char :=
  (" provided>\n                        <If ").data

/-- Fixed text between the fourth `{testcases}` and `[END TEST RESULTS]`. -/
def tpl9 : List Char :=
  (" provided is invalid return Invalid testcase>\n                        ").data

/-- Fixed text after `[END TEST RESULTS]`. -/
def tpl10 : List Char :=
  ("\n\n                        Important:\n                        - If test cases are provided, show for each test:\n                        * Input: <actual input>\n                        * Expected: <expected output>\n                        * Result: <actual output>\n                        * Status: PASS/FAIL\n                        - If no test cases are provided, only show the code section\n                        - Don\x27t explain the code unless specifically asked\n                        - Don\x27t show multiple solutions unless requested\n                        - Don\x27t add any text outside the specified format\n                    ").data

/-- The Prompt Builder: the `PromptTemplate` of `src/main.py` with
`{query}` and every `{testcases}` occurrence substituted. -/
def prompt (query testcases : List Char) : List Char :=
  tpl1 ++ query ++ tpl2 ++ testcases ++ tpl3 ++ codeOpen ++ tpl4 ++ codeClose ++
    tpl5 ++ testOpen ++ tpl6 ++ testcases ++ tpl7 ++ testcases ++ tpl8 ++
    testcases ++ tpl9 ++ testClose ++ tpl10

/-- The per-query outcome of the Streamlit `main` body:
`promptInput` is the `(query, testcases)` input actually handed to the
chain (i.e. used to build the prompt), if the chain was invoked at all;
`effects` are the rendered UI effects in order; `calls` is the number of
completion calls; `parserInvoked` records whether
`extract_code_and_tests` was run. -/
structure QueryOutcome where
  promptInput : Option (List Char × List Char)
  effects : List Effect
  calls : Nat
  parserInvoked : Bool
  deriving DecidableEq

/-- The "no testcases provided" sentinel substituted by `main`. -/
def noTestcases : List Char := ("No testcases provided").data

/-- The query-processing block of `main` (`if user_input:` onwards):
nothing happens on an empty query; otherwise the testcase default is
substituted, the chain is invoked with retry, and a truthy (non-empty)
response is parsed and rendered, test results being shown only when
they differ from the literal string `None`; a falsy response (Python
`None` from retry exhaustion, or the empty string) renders the generic
failure message instead. -/
def processQuery (user_input user_testcase : List Char)
    (call : Nat → Except (List Char) (List Char)) : QueryOutcome :=
  if user_input = [] then ⟨none, [], 0, false⟩
  else
    let testcase_value := if user_testcase ≠ [] then user_testcase else noTestcases
    let inv := invoke_with_retry call 3 2
    match inv.response with
    | some response =>
      if response ≠ [] then
        let parsed := extract_code_and_tests response
        let testEffects :=
          if parsed.2 ≠ ("None").data then
            [Effect.subheaderTestResults, Effect.renderText parsed.2]
          else []
        ⟨some (user_input, testcase_value),
          inv.effects ++ [Effect.subheaderGeneratedCode, Effect.renderCode parsed.1] ++
            testEffects,
          inv.calls, true⟩
      else
        ⟨some (user_input, testcase_value),
          inv.effects ++ [Effect.errorFailedToProcess], inv.calls, false⟩
    | none =>
      ⟨some (user_input, testcase_value),
        inv.effects ++ [Effect.errorFailedToProcess], inv.calls, false⟩

/-- Outcome of one run of `main` as a whole. -/
inductive MainOutcome
  | noKey
  | invalidKey
  | query (q : QueryOutcome)
  deriving DecidableEq

/-- The top level of `main`: ask for the API key; on an empty key show
the info message; validate the key (one probe call) and on failure show
the invalid-key error; otherwise process the query. -/
def mainFlow (api_key : List Char) (probe : Except (List Char) (List Char))
    (user_input user_testcase : List Char)
    (call : Nat → Except (List Char) (List Char)) : MainOutcome :=
  if api_key = [] then .noKey
  else if valid_api probe then .query (processQuery user_input user_testcase call)
  else .invalidKey

lemma invokeLoop_all_fail (call : Nat → Except (List Char) (List Char))
    (errs : Nat → List Char) (retries delay : Nat)
    (hfail : ∀ i, call i = .error (errs i)) :
    ∀ remaining attempt, 1 ≤ remaining →
      invokeLoop call retries delay attempt remaining =
        ⟨none,
         List.replicate (remaining - 1) (Effect.sleep delay) ++
           [Effect.errorAgentFailed retries (errs (attempt + remaining - 1))],
         remaining⟩ := by
  intro remaining
  induction remaining with
  | zero => intro attempt h; omega
  | succ r ih =>
    intro attempt _
    rw [invokeLoop, hfail attempt]
    cases r with
    | zero => simp
    | succ r' =>
      have hrec := ih (attempt + 1) (by omega)
      simp only [hrec]
      have harith : attempt + 1 + (r' + 1) - 1 = attempt + (r' + 1 + 1) - 1 := by omega
      rw [harith]
      simp [List.replicate_succ]

lemma invoke_all_fail (call : Nat → Except (List Char) (List Char))
    (errs : Nat → List Char) (N delay : Nat) (hN : 1 ≤ N)
    (hfail : ∀ i, call i = .error (errs i)) :
    invoke_with_retry call N delay =
      ⟨none,
       List.replicate (N - 1) (Effect.sleep delay) ++
         [Effect.errorAgentFailed N (errs (N - 1))],
       N⟩ := by
  have := invokeLoop_all_fail call errs N delay hfail N 0 hN
  simpa [invoke_with_retry] using this

lemma invokeLoop_succeeds (call : Nat → Except (List Char) (List Char))
    (retries delay : Nat) (r : List Char) :
    ∀ j attempt remaining, j < remaining →
      (∀ i, i < j → ∃ e, call (attempt + i) = .error e) →
      call (attempt + j) = .ok r →
      (invokeLoop call retries delay attempt remaining).response = some r ∧
      (invokeLoop call retries delay attempt remaining).calls = j + 1 := by
  intro j
  induction j with
  | zero =>
    intro attempt remaining h0 hfail hok
    cases remaining with
    | zero => omega
    | succ rem =>
      rw [invokeLoop]
      rw [show attempt + 0 = attempt from rfl] at hok
      rw [hok]
      simp
  | succ k ih =>
    intro attempt remaining hlt hfail hok
    cases remaining with
    | zero => omega
    | succ rem =>
      obtain ⟨e, he⟩ := hfail 0 (by omega)
      rw [show attempt + 0 = attempt from rfl] at he
      rw [invokeLoop, he]
      cases rem with
      | zero => omega
      | succ rem' =>
        have hrec := ih (attempt + 1) (rem' + 1) (by omega)
          (fun i hi => by
            obtain ⟨e', he'⟩ := hfail (i + 1) (by omega)
            exact ⟨e', by rw [← he']; congr 1; omega⟩)
          (by rw [← hok]; congr 1; omega)
        simp [hrec.1, hrec.2]

/-- Recognizer for sleep effects (used to count retry-gap sleeps). -/
def isSleep : Effect → Bool
  | .sleep _ => true
  | _ => false

lemma countP_replicate_eq {α : Type} (p : α → Bool) (a : α) (h : p a = true) (n : Nat) :
    (List.replicate n a).countP p = n := by
  induction n with
  | zero => simp
  | succ m ih => simp [List.replicate_succ, List.countP_cons, ih, h]

/-- Every effect produced inside `invoke_with_retry` is a sleep or the
invoker's own failure report. -/
lemma invokeLoop_effects_shape (call : Nat → Except (List Char) (List Char))
    (retries delay : Nat) :
    ∀ remaining attempt e, e ∈ (invokeLoop call retries delay attempt remaining).effects →
      (∃ s, e = .sleep s) ∨ ∃ n msg, e = .errorAgentFailed n msg := by
  intro remaining
  induction remaining with
  | zero => intro attempt e he; simp [invokeLoop] at he
  | succ rem ih =>
    intro attempt e he
    rw [invokeLoop] at he
    cases hc : call attempt with
    | ok resp => rw [hc] at he; simp at he
    | error err =>
      rw [hc] at he
      cases rem with
      | zero =>
        simp at he
        subst he
        exact Or.inr ⟨_, _, rfl⟩
      | succ rem' =>
        simp at he
        rcases he with he | he
        · exact Or.inl ⟨_, he⟩
        · exact ih (attempt + 1) e he

/-- C2: when every completion attempt raises, the Invoker with
`maxAttempts = N ≥ 1` returns no response (`none`) without raising,
performs exactly `N` calls, sleeps exactly `N - 1` times, and its last
effect is the "failed after N attempts" error report (so it never
sleeps after the final attempt). -/
theorem claim_C2 (call : Nat → Except (List Char) (List Char))
    (errs : Nat → List Char) (N delay : Nat) (hN : 1 ≤ N)
    (hfail : ∀ i, call i = .error (errs i)) :
    (invoke_with_retry call N delay).response = none ∧
    (invoke_with_retry call N delay).calls = N ∧
    (invoke_with_retry call N delay).effects.countP isSleep = N - 1 ∧
    (invoke_with_retry call N delay).effects.getLast? =
      some (Effect.errorAgentFailed N (errs (N - 1))) := by
  rw [invoke_all_fail call errs N delay hN hfail]
  refine ⟨rfl, rfl, ?_, ?_⟩
  · simp [List.countP_append, countP_replicate_eq isSleep (Effect.sleep delay) rfl,
      List.countP_cons, isSleep]
  · simp [List.getLast?_concat]

/-- C2 witness: three always-failing attempts at `N = 3`. -/
theorem claim_C2_witness :
    1 ≤ 3 ∧
    ((invoke_with_retry (fun _ => .error ("boom").data) 3 2).response = none ∧
     (invoke_with_retry (fun _ => .error ("boom").data) 3 2).calls = 3 ∧
     (invoke_with_retry (fun _ => .error ("boom").data) 3 2).effects.countP isSleep = 3 - 1 ∧
     (invoke_with_retry (fun _ => .error ("boom").data) 3 2).effects.getLast? =
       some (Effect.errorAgentFailed 3 (("boom").data))) :=
  ⟨by decide,
   claim_C2 (fun _ => .error ("boom").data) (fun _ => ("boom").data) 3 2 (by decide)
     (fun _ => rfl)⟩

/-- C3: when the completion call raises on the first `k - 1` attempts
and succeeds on attempt `k ≤ maxAttempts`, the Invoker returns exactly
the `k`-th call's result and performs exactly `k` calls (so no call
happens after the first success). -/
theorem claim_C3 (call : Nat → Except (List Char) (List Char)) (r : List Char)
    (k retries delay : Nat) (hk1 : 1 ≤ k) (hk : k ≤ retries)
    (hfail : ∀ i, i < k - 1 → ∃ e, call i = .error e)
    (hsucc : call (k - 1) = .ok r) :
    (invoke_with_retry call retries delay).response = some r ∧
    (invoke_with_retry call retries delay).calls = k := by
  have h := invokeLoop_succeeds call retries delay r (k - 1) 0 retries (by omega)
    (fun i hi => by simpa using hfail i hi)
    (by simpa using hsucc)
  unfold invoke_with_retry
  refine ⟨h.1, ?_⟩
  rw [h.2]
  omega

/-- C3 witness: fails twice then succeeds, with `maxAttempts = 3`. -/
theorem claim_C3_witness :
    (invoke_with_retry (fun i => if i < 2 then .error ("x").data else .ok ("ok").data) 3 0).response
        = some (("ok").data) ∧
    (invoke_with_retry (fun i => if i < 2 then .error ("x").data else .ok ("ok").data) 3 0).calls
        = 3 :=
  claim_C3 (fun i => if i < 2 then .error ("x").data else .ok ("ok").data) (("ok").data)
    3 3 0 (by decide) (by decide)
    (fun i hi => ⟨("x").data, by simp at hi; simp [hi]⟩)
    (by rfl)

/-- C4: the Credential Validator answers `true` exactly when the single
probe call returns a non-empty result; any exception or an empty result
yields `false`, and the validator itself never raises (it is a total
function of the one probe outcome). -/
theorem claim_C4 (probe : Except (List Char) (List Char)) :
    valid_api probe = true ↔ ∃ ans, probe = .ok ans ∧ ans ≠ [] := by
  cases probe with
  | ok a => simp [valid_api]
  | error e => simp [valid_api]

/-- C4 witness: a non-empty probe answer validates. -/
theorem claim_C4_witness : valid_api (.ok (("pong").data)) = true :=
  (claim_C4 (.ok (("pong").data))).mpr ⟨("pong").data, rfl, by decide⟩

/-- C8: a query with an empty requirement is a complete no-op: no
completion call, no parser, no rendering, no prompt built. -/
theorem claim_C8 (user_testcase : List Char)
    (call : Nat → Except (List Char) (List Char)) :
    processQuery [] user_testcase call = ⟨none, [], 0, false⟩ := by
  simp [processQuery]

/-- C1: the Response Parser is total and returns, for the code field,
the trimmed group 1 of the first (leftmost, lazily shortest) match of
`[CODE](.*?)[END CODE]`, or the sentinel `No code found.` exactly when
no such match exists; independently, for the test-results field, the
trimmed group 1 of the first match of
`[TEST RESULTS](.*?)[END TEST RESULTS]`, or the empty string when no
such match exists; on the round-trip input it yields
`("print(1)", "None")`. -/
theorem claim_C1 :
    (∀ s, ¬ PairMatch codeOpen codeClose s →
        (extract_code_and_tests s).1 = noCodeFound) ∧
    (∀ s mid, searchBetween codeOpen codeClose s = some mid →
        (extract_code_and_tests s).1 = strip mid ∧
        ∃ a b, s = a ++ codeOpen ++ mid ++ codeClose ++ b ∧
          ∀ a' mid' b', s = a' ++ codeOpen ++ mid' ++ codeClose ++ b' →
            a.length ≤ a'.length ∧
              (a'.length = a.length → mid.length ≤ mid'.length)) ∧
    (∀ s, PairMatch codeOpen codeClose s →
        ∃ mid, searchBetween codeOpen codeClose s = some mid) ∧
    (∀ s, ¬ PairMatch testOpen testClose s →
        (extract_code_and_tests s).2 = []) ∧
    (∀ s mid, searchBetween testOpen testClose s = some mid →
        (extract_code_and_tests s).2 = strip mid ∧
        ∃ a b, s = a ++ testOpen ++ mid ++ testClose ++ b ∧
          ∀ a' mid' b', s = a' ++ testOpen ++ mid' ++ testClose ++ b' →
            a.length ≤ a'.length ∧
              (a'.length = a.length → mid.length ≤ mid'.length)) ∧
    (∀ s, PairMatch testOpen testClose s →
        ∃ mid, searchBetween testOpen testClose s = some mid) ∧
    extract_code_and_tests
        ("[CODE]\nprint(1)\n[END CODE]\n[TEST RESULTS]\nNone\n[END TEST RESULTS]").data
      = (("print(1)").data, ("None").data) := by
  refine ⟨?_, ?_, ?_, ?_, ?_, ?_, by decide⟩
  · intro s h
    have hn := (searchBetween_none_iff codeOpen codeClose (by decide) s).mpr h
    simp [extract_code_and_tests, hn]
  · intro s mid h
    refine ⟨by simp [extract_code_and_tests, h], ?_⟩
    obtain ⟨a, b, hab, hmin⟩ := searchBetween_first codeOpen codeClose s mid h
    exact ⟨a, b, hab, hmin⟩
  · intro s h
    have := searchBetween_isSome codeOpen codeClose (by decide) s h
    exact Option.isSome_iff_exists.mp this
  · intro s h
    have hn := (searchBetween_none_iff testOpen testClose (by decide) s).mpr h
    simp [extract_code_and_tests, hn]
  · intro s mid h
    refine ⟨by simp [extract_code_and_tests, h], ?_⟩
    obtain ⟨a, b, hab, hmin⟩ := searchBetween_first testOpen testClose s mid h
    exact ⟨a, b, hab, hmin⟩
  · intro s h
    have := searchBetween_isSome testOpen testClose (by decide) s h
    exact Option.isSome_iff_exists.mp this

/-- C1 witness: the degradation case — an input with no `[CODE]` marker
yields the sentinel, and a concrete matched input yields the trimmed
group. -/
theorem claim_C1_witness :
    (extract_code_and_tests ("hello world").data).1 = noCodeFound ∧
    (extract_code_and_tests ("[CODE] x [END CODE]").data).1 = strip ((" x ").data) :=
  ⟨claim_C1.1 ("hello world").data
      ((searchBetween_none_iff codeOpen codeClose (by decide) _).mp (by decide)),
   (claim_C1.2.1 ("[CODE] x [END CODE]").data ((" x ").data) (by decide)).1⟩

/-- C6: for any pair of inputs with a non-empty requirement, the built
prompt contains the four literal markers and both input strings
verbatim as substrings. -/
theorem claim_C6 (query testcases : List Char) (hq : query ≠ []) :
    codeOpen <:+: prompt query testcases ∧
    codeClose <:+: prompt query testcases ∧
    testOpen <:+: prompt query testcases ∧
    testClose <:+: prompt query testcases ∧
    query <:+: prompt query testcases ∧
    testcases <:+: prompt query testcases := by
  refine ⟨⟨tpl1 ++ query ++ tpl2 ++ testcases ++ tpl3,
      tpl4 ++ codeClose ++ tpl5 ++ testOpen ++ tpl6 ++ testcases ++ tpl7 ++
        testcases ++ tpl8 ++ testcases ++ tpl9 ++ testClose ++ tpl10, ?_⟩,
    ⟨tpl1 ++ query ++ tpl2 ++ testcases ++ tpl3 ++ codeOpen ++ tpl4,
      tpl5 ++ testOpen ++ tpl6 ++ testcases ++ tpl7 ++ testcases ++ tpl8 ++
        testcases ++ tpl9 ++ testClose ++ tpl10, ?_⟩,
    ⟨tpl1 ++ query ++ tpl2 ++ testcases ++ tpl3 ++ codeOpen ++ tpl4 ++ codeClose ++ tpl5,
      tpl6 ++ testcases ++ tpl7 ++ testcases ++ tpl8 ++ testcases ++ tpl9 ++
        testClose ++ tpl10, ?_⟩,
    ⟨tpl1 ++ query ++ tpl2 ++ testcases ++ tpl3 ++ codeOpen ++ tpl4 ++ codeClose ++
        tpl5 ++ testOpen ++ tpl6 ++ testcases ++ tpl7 ++ testcases ++ tpl8 ++
        testcases ++ tpl9,
      tpl10, ?_⟩,
    ⟨tpl1,
      tpl2 ++ testcases ++ tpl3 ++ codeOpen ++ tpl4 ++ codeClose ++ tpl5 ++ testOpen ++
        tpl6 ++ testcases ++ tpl7 ++ testcases ++ tpl8 ++ testcases ++ tpl9 ++
        testClose ++ tpl10, ?_⟩,
    ⟨tpl1 ++ query ++ tpl2,
      tpl3 ++ codeOpen ++ tpl4 ++ codeClose ++ tpl5 ++ testOpen ++ tpl6 ++ testcases ++
        tpl7 ++ testcases ++ tpl8 ++ testcases ++ tpl9 ++ testClose ++ tpl10, ?_⟩⟩ <;>
    simp [prompt, List.append_assoc]

/-- C6 witness: markers and inputs occur in a concrete prompt. -/
theorem claim_C6_witness :
    ("q").data ≠ [] ∧
    (codeOpen <:+: prompt ("q").data (("t").data) ∧
     codeClose <:+: prompt ("q").data (("t").data) ∧
     testOpen <:+: prompt ("q").data (("t").data) ∧
     testClose <:+: prompt ("q").data (("t").data) ∧
     ("q").data <:+: prompt ("q").data (("t").data) ∧
     ("t").data <:+: prompt ("q").data (("t").data)) :=
  ⟨by decide, claim_C6 ("q").data (("t").data) (by decide)⟩

/-- C5: the Parser runs only when the Invoker yields a truthy
(non-empty) response; if the Invoker yields no response the Parser is
not invoked and the failure message is surfaced instead (and the flow
terminates normally, leaving the session usable). -/
theorem claim_C5 (user_input user_testcase : List Char)
    (call : Nat → Except (List Char) (List Char)) :
    ((processQuery user_input user_testcase call).parserInvoked = true →
      ∃ r, (invoke_with_retry call 3 2).response = some r ∧ r ≠ []) ∧
    (user_input ≠ [] → (invoke_with_retry call 3 2).response = none →
      (processQuery user_input user_testcase call).parserInvoked = false ∧
      Effect.errorFailedToProcess ∈ (processQuery user_input user_testcase call).effects) := by
  by_cases hui : user_input = []
  · subst hui
    refine ⟨?_, fun h _ => absurd rfl h⟩
    intro h
    simp [processQuery] at h
  · cases hres : (invoke_with_retry call 3 2).response with
    | none =>
      refine ⟨?_, ?_⟩
      · intro h
        simp only [processQuery, if_neg hui, hres] at h
        simp at h
      · intro _ _
        simp only [processQuery, if_neg hui, hres]
        simp
    | some r =>
      by_cases hr : r = []
      · subst hr
        refine ⟨?_, fun _ h => absurd h (by simp)⟩
        intro h
        simp only [processQuery, if_neg hui, hres] at h
        simp at h
      · exact ⟨fun _ => ⟨r, rfl, hr⟩, fun _ h => absurd h (by simp)⟩

/-- C5 witness: with an always-failing call the Parser is skipped and
the failure message is rendered. -/
theorem claim_C5_witness :
    ("q").data ≠ [] ∧
    (invoke_with_retry (fun _ => .error ("boom").data) 3 2).response = none ∧
    (processQuery ("q").data [] (fun _ => .error ("boom").data)).parserInvoked = false ∧
    Effect.errorFailedToProcess ∈
      (processQuery ("q").data [] (fun _ => .error ("boom").data)).effects :=
  ⟨by decide, by decide,
   (claim_C5 ("q").data [] (fun _ => .error ("boom").data)).2 (by decide) (by decide)⟩

lemma invoke_effects_shape (call : Nat → Except (List Char) (List Char))
    (retries delay : Nat) :
    ∀ e ∈ (invoke_with_retry call retries delay).effects,
      (∃ s, e = .sleep s) ∨ ∃ n msg, e = .errorAgentFailed n msg :=
  fun e he => invokeLoop_effects_shape call retries delay retries 0 e he

/-- C7: with a non-empty key, a valid credential, a non-empty
requirement and an empty testcases input, the Orchestrator runs the
query with the `No testcases provided` sentinel substituted into the
prompt input, and after a successful truthy invocation renders the
parsed code, rendering the parsed test results exactly when they differ
from the literal string `None`. -/
theorem claim_C7 (api_key user_input : List Char)
    (probe : Except (List Char) (List Char))
    (call : Nat → Except (List Char) (List Char)) (r : List Char)
    (hkey : api_key ≠ []) (hvalid : valid_api probe = true) (hui : user_input ≠ [])
    (hres : (invoke_with_retry call 3 2).response = some r) (hr : r ≠ []) :
    mainFlow api_key probe user_input [] call = .query (processQuery user_input [] call) ∧
    (processQuery user_input [] call).promptInput = some (user_input, noTestcases) ∧
    Effect.renderCode (extract_code_and_tests r).1 ∈ (processQuery user_input [] call).effects ∧
    (Effect.renderText (extract_code_and_tests r).2 ∈ (processQuery user_input [] call).effects ↔
      (extract_code_and_tests r).2 ≠ ("None").data) := by
  have hpq : processQuery user_input [] call =
      ⟨some (user_input, noTestcases),
       (invoke_with_retry call 3 2).effects ++
         [Effect.subheaderGeneratedCode,
          Effect.renderCode (extract_code_and_tests r).1] ++
         (if (extract_code_and_tests r).2 ≠ ("None").data then
            [Effect.subheaderTestResults, Effect.renderText (extract_code_and_tests r).2]
          else []),
       (invoke_with_retry call 3 2).calls, true⟩ := by
    simp only [processQuery, if_neg hui, hres]
    simp [hr]
  refine ⟨by simp [mainFlow, if_neg hkey, hvalid], ?_, ?_, ?_⟩
  · rw [hpq]
  · rw [hpq]
    simp
  · rw [hpq]
    by_cases hnone : (extract_code_and_tests r).2 = ("None").data
    · rw [if_neg (by simpa using hnone)]
      simp only [List.append_nil, List.mem_append, List.mem_cons, List.not_mem_nil]
      constructor
      · intro hmem
        rcases hmem with h | h
        · rcases invoke_effects_shape call 3 2 _ h with ⟨s, hs⟩ | ⟨n, m, hs⟩ <;> simp at hs
        · simp at h
      · intro hne
        exact absurd hnone hne
    · rw [if_pos hnone]
      simp [hnone]

/-- The mocked completion response used by the end-to-end witness. -/
def wResp : List Char :=
  ("[CODE]\nprint(1)\n[END CODE]\n[TEST RESULTS]\nNone\n[END TEST RESULTS]").data

/-- The mocked completion call used by the end-to-end witness. -/
def wCall : Nat → Except (List Char) (List Char) := fun _ => .ok wResp

/-- C7 witness: the palindrome scenario with the mocked response whose
test results are the literal `None`, hence hidden. -/
theorem claim_C7_witness :
    mainFlow ("k").data (.ok (("pong").data)) ("Check if a string is a palindrome").data [] wCall
        = .query (processQuery ("Check if a string is a palindrome").data [] wCall) ∧
    (processQuery ("Check if a string is a palindrome").data [] wCall).promptInput
        = some (("Check if a string is a palindrome").data, noTestcases) ∧
    Effect.renderCode (extract_code_and_tests wResp).1
        ∈ (processQuery ("Check if a string is a palindrome").data [] wCall).effects ∧
    (Effect.renderText (extract_code_and_tests wResp).2
        ∈ (processQuery ("Check if a string is a palindrome").data [] wCall).effects ↔
      (extract_code_and_tests wResp).2 ≠ ("None").data) :=
  claim_C7 ("k").data ("Check if a string is a palindrome").data (.ok (("pong").data))
    wCall wResp (by decide) (by decide) (by decide) (by decide) (by decide)

/-- C9 counterexample: an empty successful response and retry
exhaustion are distinguishable at the interface — exhaustion
additionally surfaces the invoker's own "Agent failed after 3
attempts" error, so the rendered effect sequences differ. -/
theorem claim_C9_cx :
    (processQuery ("q").data ("tc").data (fun _ => .ok [])).effects ≠
      (processQuery ("q").data ("tc").data (fun _ => .error ("boom").data)).effects := by
  decide

/-- C9 (amended): when the completion succeeds but returns the empty
string, the Orchestrator takes the same failure branch as on retry
exhaustion: the Parser is not invoked, no code is rendered, and the
generic failure message is surfaced, the Orchestrator appending exactly
the same `Failed to process the query.` effect after the invoker's own
effects — though the invoker-level error report that accompanies
exhaustion is absent, so the two cases remain distinguishable. -/
theorem claim_C9 (user_input user_testcase : List Char)
    (call : Nat → Except (List Char) (List Char))
    (hui : user_input ≠ []) (hres : (invoke_with_retry call 3 2).response = some []) :
    (processQuery user_input user_testcase call).parserInvoked = false ∧
    (∀ c, Effect.renderCode c ∉ (processQuery user_input user_testcase call).effects) ∧
    Effect.errorFailedToProcess ∈ (processQuery user_input user_testcase call).effects ∧
    (processQuery user_input user_testcase call).effects =
      (invoke_with_retry call 3 2).effects ++ [Effect.errorFailedToProcess] := by
  have hpq : processQuery user_input user_testcase call =
      ⟨some (user_input, if user_testcase ≠ [] then user_testcase else noTestcases),
       (invoke_with_retry call 3 2).effects ++ [Effect.errorFailedToProcess],
       (invoke_with_retry call 3 2).calls, false⟩ := by
    simp [processQuery, if_neg hui, hres]
  rw [hpq]
  refine ⟨rfl, ?_, by simp, rfl⟩
  intro c hmem
  simp only [List.mem_append, List.mem_singleton] at hmem
  rcases hmem with h | h
  · rcases invoke_effects_shape call 3 2 _ h with ⟨s, hs⟩ | ⟨n, m, hs⟩ <;> simp at hs
  · simp at h

/-- C9 witness: the concrete empty-success run. -/
theorem claim_C9_witness :
    (processQuery ("q").data ("tc").data (fun _ => .ok [])).parserInvoked = false ∧
    (∀ c, Effect.renderCode c ∉ (processQuery ("q").data ("tc").data (fun _ => .ok [])).effects) ∧
    Effect.errorFailedToProcess ∈ (processQuery ("q").data ("tc").data (fun _ => .ok [])).effects ∧
    (processQuery ("q").data ("tc").data (fun _ => .ok [])).effects =
      (invoke_with_retry (fun _ => .ok []) 3 2).effects ++ [Effect.errorFailedToProcess] :=
  claim_C9 ("q").data ("tc").data (fun _ => .ok []) (by decide) (by decide)

lemma strip_eq_nil_of_space (l : List Char) (h : ∀ c ∈ l, pyIsSpace c = true) :
    strip l = [] := by
  have h1 : l.dropWhile pyIsSpace = [] := List.dropWhile_eq_nil_iff.mpr h
  simp [strip, h1]

/-- C10 counterexample: the sentinel `No code found.` can also arise
when a match exists whose content trims to exactly the sentinel text,
so it does not arise only in the no-match case. -/
theorem claim_C10_cx :
    PairMatch codeOpen codeClose ("[CODE] No code found. [END CODE]").data ∧
    (extract_code_and_tests ("[CODE] No code found. [END CODE]").data).1 = noCodeFound := by
  constructor
  · exact ⟨[], (" No code found. ").data, [], by decide⟩
  · decide

/-- C10 (amended): a present-but-whitespace-only code section yields
the empty string, not the sentinel — `[CODE][END CODE]` gives `""` —
and the sentinel arises exactly when no match exists or when the
matched content itself trims to the literal sentinel text; hence an
empty section and a missing section still produce different results. -/
theorem claim_C10 :
    (extract_code_and_tests ("[CODE][END CODE]").data).1 = [] ∧
    (extract_code_and_tests ("[CODE][END CODE]").data).1 ≠ noCodeFound ∧
    (∀ s mid, searchBetween codeOpen codeClose s = some mid →
        (∀ c ∈ mid, pyIsSpace c = true) → (extract_code_and_tests s).1 = []) ∧
    (∀ s, (extract_code_and_tests s).1 = noCodeFound ↔
        (¬ PairMatch codeOpen codeClose s ∨
         ∃ mid, searchBetween codeOpen codeClose s = some mid ∧ strip mid = noCodeFound)) := by
  refine ⟨by decide, by decide, ?_, ?_⟩
  · intro s mid h hsp
    simp [extract_code_and_tests, h, strip_eq_nil_of_space mid hsp]
  · intro s
    cases hs : searchBetween codeOpen codeClose s with
    | none =>
      simp only [extract_code_and_tests, hs]
      simp only [true_iff, eq_self_iff_true]
      exact Or.inl ((searchBetween_none_iff codeOpen codeClose (by decide) s).mp hs)
    | some mid =>
      simp only [extract_code_and_tests, hs]
      constructor
      · intro hstrip
        exact Or.inr ⟨mid, rfl, hstrip⟩
      · intro hd
        rcases hd with hnp | ⟨mid', hm, hstrip⟩
        · obtain ⟨a, b, hab⟩ := searchBetween_some_decomp codeOpen codeClose s mid hs
          exact absurd ⟨a, mid, b, hab⟩ hnp
        · simp only [Option.some.injEq] at hm
          subst hm
          exact hstrip

/-- C10 witness: a whitespace-only section yields the empty string. -/
theorem claim_C10_witness :
    (extract_code_and_tests ("[CODE] \n [END CODE]").data).1 = [] :=
  claim_C10.2.2.1 ("[CODE] \n [END CODE]").data ((" \n ").data) (by decide) (by decide)
